import Mathlib

/-!
Shallow embedding of `chat-backend/api/routes/http_stream.py` and proofs about
its observable behaviour.

The module under verification is a single HTTP streaming endpoint:
`http_stream_chat` validates the account and chat referenced by a
`StreamRequest` and, on success, returns a streaming response produced by the
async generator `stream_llm_response`, which re-emits LLM fragments as SSE
events (`start`, `chunk`, `summary`, `complete`, `error`) and finally persists
the full response through `update_message`.

Modelling choices (each mirrors a concrete line of the Python source):
* Python strings are Lean `String`s; the Python operations used by the source
  (`+=`, `len`, `in` on a single character, `split('\n')[0]`, `[:50]`,
  `replace('\n', ' ')`, truthiness) are modelled on the `data` character list,
  which matches Python's code-point semantics.
* The lazy LLM stream `run_llm_stream(prompt, profile)` is modelled by the
  finite list of fragments it yields before it either ends normally or raises.
  A raised exception is the `streamExc : Option String` parameter: `some msg`
  means the stream raises with text `msg` after yielding all listed fragments
  (a mid-stream exception is the same model with the shorter fragment list).
* The two `try/except` blocks that swallow failures (title derivation,
  lines 124-132, and `update_message`, lines 159-166) are modelled by the
  fault-injection flags `titleExc` and `updateExc`: `titleExc = true` means the
  title computation raised (the handler sets `title = None` and continues);
  `updateExc = true` means `update_message` raised (the handler only logs, so
  the outcome is unchanged; the store still received the call).
* External collaborators `get_account` / `get_chat` are function parameters;
  prompt construction does not influence any observable claimed about, so the
  prompt is threaded as an opaque string.  An exception during setup
  (lines 69-75) is the `setupExc` parameter.
-/

namespace HttpStream

/-- Python `s1 + s2` on code-point lists (same as `String.append`, but kept on
`data` so every operation reduces in the kernel). -/
def strConcat (s t : String) : String := ⟨s.data ++ t.data⟩

/-- Python `len(s)`: number of code points. -/
def strLen (s : String) : Nat := s.data.length

/-- Python `c in s` for a single-character `c`: character membership. -/
def strContains (s : String) (c : Char) : Bool := s.data.contains c

/-- Python `s[:n]`: the first `n` code points. -/
def strTake (s : String) (n : Nat) : String := ⟨s.data.take n⟩

/-- Python `s.split('\n')[0]`: the characters before the first newline. -/
def firstLine (s : String) : String := ⟨s.data.takeWhile (fun c => c ≠ '\n')⟩

/-- Python `s.replace('\n', ' ')`: the pattern is a single character, so this
is a character-wise map. -/
def replaceNL (s : String) : String :=
  ⟨s.data.map (fun c => if c = '\n' then ' ' else c)⟩

/-- Python truthiness of a string (`if title:`, `if original_message_id:`):
true exactly for non-empty strings. -/
def strTruthy (s : String) : Bool := !s.data.isEmpty

/-- Concatenation of a list of strings in order, as accumulated by
`full_response += chunk` over the whole stream (line 101). -/
def joinFrags : List String → String
  | [] => ""
  | c :: cs => strConcat c (joinFrags cs)

/-- One SSE event, line 89/110/136/143/173 of the source: the `type` tag
together with the one data field the source actually populates (`start` has an
empty payload). -/
inductive SSEEvent where
  | start : SSEEvent
  | chunk (text : String) : SSEEvent
  | summary (title : String) : SSEEvent
  | complete (text : String) : SSEEvent
  | error (message : String) : SSEEvent
deriving DecidableEq

/-- One call to `update_message(message_id=..., **update_data_cleaned)`
(lines 160-163): the keyword arguments that survived the cleaning filter. -/
structure UpdateCall where
  message_id : String
  response : Option String
  title : Option String
deriving DecidableEq

/-- Observable outcome of running the generator `stream_llm_response` to
completion: the SSE events yielded, in order, and the `update_message` calls
issued to the store. -/
structure StreamOutcome where
  events : List SSEEvent
  updates : List UpdateCall
deriving DecidableEq

/-- Line 95: `max_buffer_size = 5`. -/
def maxBufferSize : Nat := 5

/-- Lines 106-107: flush when the (already incremented) buffer count reaches
the threshold or the just-received fragment contains `.`, `\n`, `?` or `!`. -/
def flushAfter (bufferSize : Nat) (chunk : String) : Bool :=
  decide (maxBufferSize ≤ bufferSize) || strContains chunk '.' ||
    strContains chunk '\n' || strContains chunk '?' || strContains chunk '!'

/-- Lines 99-120, the fragment loop: given the remaining fragments and the
current `buffer`, `full_response` and `buffer_size`, return the `chunk` events
yielded, the final (unflushed) buffer and the final `full_response`. -/
def streamChunks : List String → String → String → Nat →
    List SSEEvent × String × String
  | [], buffer, full, _ => ([], buffer, full)
  | c :: cs, buffer, full, bufferSize =>
    let buffer1 := strConcat buffer c
    let full1 := strConcat full c
    let size1 := bufferSize + 1
    if flushAfter size1 c then
      let rest := streamChunks cs "" full1 0
      (SSEEvent.chunk buffer1 :: rest.1, rest.2)
    else
      streamChunks cs buffer1 full1 size1

/-- Lines 123-132, title derivation on stream exhaustion: only when
`len(full_response) > 10`; first line capped at 50 characters, falling back to
the first 50 characters with newlines replaced by spaces when that candidate
is shorter than 10 characters. -/
def deriveTitle (full : String) : Option String :=
  if strLen full > 10 then
    let candidate := strTake (firstLine full) 50
    if strLen candidate < 10 then some (replaceNL (strTake full 50))
    else some candidate
  else none

/-- Line 156, the cleaning filter applied to the `title` entry of
`update_data`: drop `None` and the empty string. -/
def filterTitle : Option String → Option String
  | none => none
  | some t => if strTruthy t then some t else none

/-- Lines 123-132 together with the enclosing try/except: the value of the
`title` variable after the handler ran, `none` when the computation raised
(`titleExc = true`). -/
def runTitle (titleExc : Bool) (full : String) : Option String :=
  if titleExc then none else deriveTitle full

/-- Lines 134-140: the `summary` event is emitted iff `title` is truthy. -/
def summaryEvents : Option String → List SSEEvent
  | some t => if strTruthy t then [SSEEvent.summary t] else []
  | none => []

/-- Lines 150-168: the `update_message` calls issued after the `complete`
event.  The `response` entry survives the cleaning filter iff `full_response`
is non-empty; the call is made only when `original_message_id` is truthy and
the cleaned dict is non-empty. -/
def updateCalls (original_message_id full : String) (title : Option String) :
    List UpdateCall :=
  if strTruthy original_message_id then
    let responseField := if strTruthy full then some full else none
    let titleField := filterTitle title
    if responseField.isSome || titleField.isSome then
      [⟨original_message_id, responseField, titleField⟩]
    else []
  else []

/-- Lines 77-177, the whole generator `stream_llm_response`.  `fragments` and
`streamExc` describe the LLM stream (see the module docstring); `titleExc` and
`updateExc` inject the two swallowed failures.  The events list is exactly the
sequence of SSE frames yielded, in order. -/
def stream_llm_response (fragments : List String) (streamExc : Option String)
    (titleExc updateExc : Bool) (original_message_id : String) : StreamOutcome :=
  let run := streamChunks fragments "" "" 0
  let chunkEvents := run.1
  let full := run.2.2
  match streamExc with
  | some msg =>
    { events := SSEEvent.start :: chunkEvents ++ [SSEEvent.error msg]
      updates := [] }
  | none =>
    let title := runTitle titleExc full
    { events := SSEEvent.start :: chunkEvents ++ summaryEvents title ++
        [SSEEvent.complete full]
      updates := updateCalls original_message_id full title }

/-- Request body (lines 18-22).  All four fields are required strings. -/
structure StreamRequest where
  message : String
  account_id : String
  conversation_id : String
  original_message_id : String

/-- Account record: only existence and `system_prompt` are read (line 54). -/
structure Account where
  system_prompt : Option String

/-- Chat record: only existence and `model_profile` are read (line 64). -/
structure Chat where
  model_profile : Option String

/-- Result of the endpoint: either a synchronous JSON response
`Response(content=json of single key error, status_code=...)` or a streaming
response wrapping the generator's outcome. -/
inductive HttpResult where
  | sync (status : Nat) (error : String) : HttpResult
  | streaming (outcome : StreamOutcome) : HttpResult
deriving DecidableEq

/-- Lines 24-75, the endpoint `http_stream_chat`.  `get_account` and
`get_chat` are the lookup collaborators; `setupExc = some msg` injects an
exception raised after validation during prompt assembly (lines 49-55), which
the outer handler converts to a 500 (lines 69-75). -/
def http_stream_chat (get_account : String → Option Account)
    (get_chat : String → Option Chat) (setupExc : Option String)
    (fragments : List String) (streamExc : Option String)
    (titleExc updateExc : Bool) (req : StreamRequest) : HttpResult :=
  match get_account req.account_id with
  | none => HttpResult.sync 400 "Invalid account ID"
  | some _account =>
    match get_chat req.conversation_id with
    | none => HttpResult.sync 400 "Invalid chat ID"
    | some _chat =>
      match setupExc with
      | some msg => HttpResult.sync 500 msg
      | none =>
        HttpResult.streaming
          (stream_llm_response fragments streamExc titleExc updateExc
            req.original_message_id)

/-! Observation functions on event sequences, used to state the claims. -/

/-- Text carried by a `chunk` event. -/
def chunkText? : SSEEvent → Option String
  | SSEEvent.chunk t => some t
  | _ => none

/-- Title carried by a `summary` event. -/
def summaryText? : SSEEvent → Option String
  | SSEEvent.summary t => some t
  | _ => none

/-- Text carried by a `complete` event. -/
def completeText? : SSEEvent → Option String
  | SSEEvent.complete t => some t
  | _ => none

/-- Whether an event is an `error` event. -/
def isErrorEv : SSEEvent → Bool
  | SSEEvent.error _ => true
  | _ => false

/-- Concatenation of the texts of all `chunk` events, in emission order. -/
def concatChunkTexts (evs : List SSEEvent) : String :=
  joinFrags (evs.filterMap chunkText?)

/-- Text of the first `complete` event, when one exists. -/
def completeTextOf (evs : List SSEEvent) : Option String :=
  (evs.filterMap completeText?).head?

/-- Titles of all `summary` events, in emission order. -/
def summaryTextsOf (evs : List SSEEvent) : List String :=
  evs.filterMap summaryText?

/-- Grammar of a well-formed event tail after the initial `start`: zero or
more `chunk` events, then either a terminal `complete`, a terminal `error`,
or a `summary` immediately followed by a terminal `complete`.  Nothing may
follow the terminal event. -/
inductive TailGrammar : List SSEEvent → Prop where
  | completeOnly (t : String) : TailGrammar [SSEEvent.complete t]
  | errorOnly (m : String) : TailGrammar [SSEEvent.error m]
  | summaryComplete (s t : String) :
      TailGrammar [SSEEvent.summary s, SSEEvent.complete t]
  | chunkCons (b : String) {rest : List SSEEvent} (h : TailGrammar rest) :
      TailGrammar (SSEEvent.chunk b :: rest)

/-- Grammar of a full event sequence: exactly one `start` first (no other
event can be `start`, since `TailGrammar` never generates one), then a tail
conforming to `TailGrammar`. -/
def ValidSeq (evs : List SSEEvent) : Prop :=
  ∃ rest, evs = SSEEvent.start :: rest ∧ TailGrammar rest

/-! Basic lemmas about the string primitives. -/

theorem strConcat_assoc (a b c : String) :
    strConcat (strConcat a b) c = strConcat a (strConcat b c) :=
  congrArg String.mk (List.append_assoc a.data b.data c.data)

theorem strConcat_empty (s : String) : strConcat s "" = s := by
  cases s with
  | mk d => exact congrArg String.mk (List.append_nil d)

theorem strConcat_empty_left (s : String) : strConcat "" s = s := by
  cases s with
  | mk d => rfl

theorem strTruthy_empty : strTruthy "" = false := rfl

theorem strTruthy_of_pos (s : String) (h : 0 < strLen s) : strTruthy s = true := by
  cases s with
  | mk d =>
    cases d with
    | nil => simp [strLen] at h
    | cons a l => rfl

theorem strLen_replaceNL (s : String) : strLen (replaceNL s) = strLen s := by
  simp [strLen, replaceNL]

theorem strLen_strTake (s : String) (n : Nat) :
    strLen (strTake s n) = min n (strLen s) := by
  simp [strLen, strTake]

theorem joinFrags_cons (c : String) (cs : List String) :
    joinFrags (c :: cs) = strConcat c (joinFrags cs) := rfl

/-! Invariants of the fragment loop `streamChunks`. -/

theorem streamChunks_full (cs : List String) : ∀ b f n,
    (streamChunks cs b f n).2.2 = strConcat f (joinFrags cs) := by
  induction cs with
  | nil =>
    intro b f n
    simp [streamChunks, joinFrags, strConcat_empty]
  | cons c cs ih =>
    intro b f n
    simp only [streamChunks]
    split
    · simp [ih, joinFrags_cons, strConcat_assoc]
    · simp [ih, joinFrags_cons, strConcat_assoc]

theorem concatChunkTexts_cons_chunk (x : String) (l : List SSEEvent) :
    concatChunkTexts (SSEEvent.chunk x :: l) = strConcat x (concatChunkTexts l) := by
  simp [concatChunkTexts, chunkText?, joinFrags_cons]

theorem streamChunks_chunkConcat (cs : List String) : ∀ b f n,
    strConcat (concatChunkTexts (streamChunks cs b f n).1)
      (streamChunks cs b f n).2.1 = strConcat b (joinFrags cs) := by
  induction cs with
  | nil =>
    intro b f n
    simp [streamChunks, concatChunkTexts, joinFrags, strConcat_empty,
      strConcat_empty_left]
  | cons c cs ih =>
    intro b f n
    simp only [streamChunks]
    split
    · simp [concatChunkTexts_cons_chunk, strConcat_assoc, ih,
        strConcat_empty_left, joinFrags_cons]
    · simp [ih, joinFrags_cons, strConcat_assoc]

theorem streamChunks_all_chunks (cs : List String) : ∀ b f n,
    ∀ e ∈ (streamChunks cs b f n).1, ∃ t, e = SSEEvent.chunk t := by
  induction cs with
  | nil =>
    intro b f n e he
    simp [streamChunks] at he
  | cons c cs ih =>
    intro b f n e he
    simp only [streamChunks] at he
    split at he
    · rcases List.mem_cons.mp he with h1 | h2
      · exact ⟨_, h1⟩
      · exact ih _ _ _ e h2
    · exact ih _ _ _ e he

theorem chunks_filterMap_none {β : Type} (f : SSEEvent → Option β)
    (hf : ∀ t, f (SSEEvent.chunk t) = none) (cs : List String) (b fl : String)
    (n : Nat) : ((streamChunks cs b fl n).1.filterMap f) = [] := by
  rw [List.filterMap_eq_nil_iff]
  intro e he
  rcases streamChunks_all_chunks cs b fl n e he with ⟨t, rfl⟩
  exact hf t

theorem chunks_countP_error (cs : List String) (b f : String) (n : Nat) :
    List.countP isErrorEv (streamChunks cs b f n).1 = 0 := by
  rw [List.countP_eq_zero]
  intro e he
  rcases streamChunks_all_chunks cs b f n e he with ⟨t, rfl⟩
  simp [isErrorEv]

/-! Unfolding equations for `stream_llm_response`. -/

theorem stream_events_none (fragments : List String) (tE uE : Bool) (mid : String) :
    (stream_llm_response fragments none tE uE mid).events =
      SSEEvent.start :: (streamChunks fragments "" "" 0).1 ++
        summaryEvents (runTitle tE (streamChunks fragments "" "" 0).2.2) ++
        [SSEEvent.complete (streamChunks fragments "" "" 0).2.2] := rfl

theorem stream_updates_none (fragments : List String) (tE uE : Bool) (mid : String) :
    (stream_llm_response fragments none tE uE mid).updates =
      updateCalls mid (streamChunks fragments "" "" 0).2.2
        (runTitle tE (streamChunks fragments "" "" 0).2.2) := rfl

theorem stream_events_some (fragments : List String) (msg : String)
    (tE uE : Bool) (mid : String) :
    (stream_llm_response fragments (some msg) tE uE mid).events =
      SSEEvent.start :: (streamChunks fragments "" "" 0).1 ++
        [SSEEvent.error msg] := rfl

theorem stream_updates_some (fragments : List String) (msg : String)
    (tE uE : Bool) (mid : String) :
    (stream_llm_response fragments (some msg) tE uE mid).updates = [] := rfl

theorem full_eq_joinFrags (fragments : List String) :
    (streamChunks fragments "" "" 0).2.2 = joinFrags fragments := by
  rw [streamChunks_full]
  exact strConcat_empty_left _

/-! Lemmas about the summary block and title derivation. -/

theorem summaryEvents_filterMap_completeText (o : Option String) :
    (summaryEvents o).filterMap completeText? = [] := by
  cases o with
  | none => rfl
  | some t =>
    cases htr : strTruthy t with
    | true => simp [summaryEvents, htr, completeText?]
    | false => simp [summaryEvents, htr]

theorem summaryEvents_filterMap_chunkText (o : Option String) :
    (summaryEvents o).filterMap chunkText? = [] := by
  cases o with
  | none => rfl
  | some t =>
    cases htr : strTruthy t with
    | true => simp [summaryEvents, htr, chunkText?]
    | false => simp [summaryEvents, htr]

theorem summaryEvents_countP_error (o : Option String) :
    List.countP isErrorEv (summaryEvents o) = 0 := by
  cases o with
  | none => rfl
  | some t =>
    cases htr : strTruthy t with
    | true => simp [summaryEvents, htr, List.countP_cons, isErrorEv]
    | false => simp [summaryEvents, htr]

theorem deriveTitle_of_gt (full : String) (h : strLen full > 10) :
    deriveTitle full =
      some (if strLen (strTake (firstLine full) 50) < 10 then
          replaceNL (strTake full 50)
        else strTake (firstLine full) 50) := by
  rw [deriveTitle, if_pos h]
  show (if strLen (strTake (firstLine full) 50) < 10 then
      some (replaceNL (strTake full 50)) else some (strTake (firstLine full) 50)) =
    some (if strLen (strTake (firstLine full) 50) < 10 then
      replaceNL (strTake full 50) else strTake (firstLine full) 50)
  exact (apply_ite some _ _ _).symm

theorem deriveTitle_of_le (full : String) (h : strLen full ≤ 10) :
    deriveTitle full = none := by
  rw [deriveTitle, if_neg]
  omega

theorem deriveTitle_truthy (full : String) (h : strLen full > 10) :
    ∃ t, deriveTitle full = some t ∧ strTruthy t = true := by
  refine ⟨_, deriveTitle_of_gt full h, ?_⟩
  split
  · apply strTruthy_of_pos
    rw [strLen_replaceNL, strLen_strTake]
    omega
  · rename_i hc
    apply strTruthy_of_pos
    omega

/-! Lemmas about the SSE grammar. -/

theorem tailGrammar_chunks_append (l tail : List SSEEvent)
    (hl : ∀ e ∈ l, ∃ t, e = SSEEvent.chunk t) (ht : TailGrammar tail) :
    TailGrammar (l ++ tail) := by
  induction l with
  | nil => simpa using ht
  | cons e l ih =>
    rcases hl e (List.mem_cons_self e l) with ⟨t, rfl⟩
    exact TailGrammar.chunkCons t
      (ih (fun e' he' => hl e' (List.mem_cons_of_mem _ he')))

theorem tailGrammar_summary_complete (o : Option String) (full : String) :
    TailGrammar (summaryEvents o ++ [SSEEvent.complete full]) := by
  cases o with
  | none => exact TailGrammar.completeOnly full
  | some t =>
    cases htr : strTruthy t with
    | true =>
      simp only [summaryEvents, htr, if_true, List.cons_append, List.nil_append]
      exact TailGrammar.summaryComplete t full
    | false =>
      simp only [summaryEvents, htr, if_false, List.nil_append]
      exact TailGrammar.completeOnly full

theorem getLast?_cons_concat {α : Type} (a : α) (l : List α) (b : α) :
    (a :: (l ++ [b])).getLast? = some b := by
  rw [← List.cons_append, List.getLast?_concat]

/-! Claim theorems. -/

/-- C1 (counterexample): the claim that the concatenation of `chunk` event
texts equals the `complete` event text fails on the code.  With the single
fragment "hi" the buffer never reaches the size threshold and contains no
punctuation, so it is never flushed: no `chunk` event is emitted at all, yet
the `complete` event carries "hi". -/
theorem chunk_concat_eq_complete_cex :
    completeTextOf (stream_llm_response ["hi"] none false false "m").events =
      some "hi" ∧
    concatChunkTexts (stream_llm_response ["hi"] none false false "m").events ≠
      "hi" := by decide

/-- C1 (amended): the `complete` event text equals the concatenation of all
fragments in yield order, and the concatenation of the `chunk` event texts in
emission order extended by the final unflushed buffer equals it — so the
chunk concatenation equals the `complete` text exactly when the loop's last
buffer was flushed, and is an initial segment of it otherwise. -/
theorem chunk_concat_eq_complete_amended (fragments : List String)
    (tE uE : Bool) (mid : String) :
    completeTextOf (stream_llm_response fragments none tE uE mid).events =
      some (joinFrags fragments) ∧
    strConcat (concatChunkTexts (stream_llm_response fragments none tE uE mid).events)
      (streamChunks fragments "" "" 0).2.1 = joinFrags fragments := by
  constructor
  · rw [stream_events_none, completeTextOf]
    simp [List.filterMap_append, completeText?,
      chunks_filterMap_none completeText? (fun _ => rfl),
      summaryEvents_filterMap_completeText, full_eq_joinFrags]
  · have h1 : concatChunkTexts (stream_llm_response fragments none tE uE mid).events
        = concatChunkTexts (streamChunks fragments "" "" 0).1 := by
      rw [stream_events_none, concatChunkTexts, concatChunkTexts]
      congr 1
      simp [List.filterMap_append, chunkText?, summaryEvents_filterMap_chunkText]
    rw [h1]
    have h2 := streamChunks_chunkConcat fragments "" "" 0
    rwa [strConcat_empty_left] at h2

/-- C2: for every execution of the streaming generator, the emitted event
sequence conforms to the SSE grammar: exactly one `start` first, then zero or
more `chunk` events, then an optional `summary`, then exactly one terminal
`complete` or `error`, with nothing after the terminal event and `summary`
(when present) immediately preceding `complete`. -/
theorem sse_event_grammar (fragments : List String) (streamExc : Option String)
    (tE uE : Bool) (mid : String) :
    ValidSeq (stream_llm_response fragments streamExc tE uE mid).events := by
  cases streamExc with
  | none =>
    refine ⟨(streamChunks fragments "" "" 0).1 ++
        (summaryEvents (runTitle tE (streamChunks fragments "" "" 0).2.2) ++
          [SSEEvent.complete (streamChunks fragments "" "" 0).2.2]), ?_, ?_⟩
    · rw [stream_events_none]
      simp [List.append_assoc]
    · exact tailGrammar_chunks_append _ _
        (streamChunks_all_chunks fragments "" "" 0)
        (tailGrammar_summary_complete _ _)
  | some msg =>
    exact ⟨_, stream_events_some fragments msg tE uE mid,
      tailGrammar_chunks_append _ _
        (streamChunks_all_chunks fragments "" "" 0)
        (TailGrammar.errorOnly msg)⟩

/-- C3: when the account lookup returns `None` the endpoint returns a
synchronous HTTP 400 response whose body carries the error string
"Invalid account ID"; the result is a `sync` response, not a `streaming` one,
so no SSE event is ever emitted. -/
theorem invalid_account_400 (ga : String → Option Account)
    (gc : String → Option Chat) (setupExc : Option String)
    (fragments : List String) (streamExc : Option String) (tE uE : Bool)
    (req : StreamRequest) (h : ga req.account_id = none) :
    http_stream_chat ga gc setupExc fragments streamExc tE uE req =
      HttpResult.sync 400 "Invalid account ID" := by
  simp [http_stream_chat, h]

/-- Witness for C3 at a concrete request and concrete lookups. -/
theorem invalid_account_400_witness :
    (fun _ : String => (none : Option Account)) "a1" = none ∧
    http_stream_chat (fun _ => none) (fun _ => some ⟨none⟩) none [] none
      false false ⟨"hello", "a1", "c1", "m1"⟩ =
      HttpResult.sync 400 "Invalid account ID" :=
  ⟨rfl, invalid_account_400 (fun _ => none) (fun _ => some ⟨none⟩) none []
    none false false ⟨"hello", "a1", "c1", "m1"⟩ rfl⟩

/-- C4: when the account lookup succeeds but the chat lookup returns `None`
the endpoint returns a synchronous HTTP 400 response whose body carries the
error string "Invalid chat ID"; again the result is a `sync` response, so no
stream is opened. -/
theorem invalid_chat_400 (ga : String → Option Account)
    (gc : String → Option Chat) (setupExc : Option String)
    (fragments : List String) (streamExc : Option String) (tE uE : Bool)
    (req : StreamRequest) (acc : Account) (h1 : ga req.account_id = some acc)
    (h2 : gc req.conversation_id = none) :
    http_stream_chat ga gc setupExc fragments streamExc tE uE req =
      HttpResult.sync 400 "Invalid chat ID" := by
  simp [http_stream_chat, h1, h2]

/-- Witness for C4 at a concrete request and concrete lookups. -/
theorem invalid_chat_400_witness :
    (fun _ : String => some (⟨none⟩ : Account)) "a1" = some ⟨none⟩ ∧
    (fun _ : String => (none : Option Chat)) "c1" = none ∧
    http_stream_chat (fun _ => some ⟨none⟩) (fun _ => none) none [] none
      false false ⟨"hello", "a1", "c1", "m1"⟩ =
      HttpResult.sync 400 "Invalid chat ID" :=
  ⟨rfl, rfl, invalid_chat_400 (fun _ => some ⟨none⟩) (fun _ => none) none []
    none false false ⟨"hello", "a1", "c1", "m1"⟩ ⟨none⟩ rfl rfl⟩

/-- C5: when the LLM stream raises after the `start` event (having yielded
any finite list of fragments first), the generator emits exactly one `error`
event, carrying the exception's text, as the last event of the sequence; no
`complete` event is ever emitted and no update call is made. -/
theorem stream_exception_single_error (fragments : List String) (msg : String)
    (tE uE : Bool) (mid : String) :
    (stream_llm_response fragments (some msg) tE uE mid).events.getLast? =
      some (SSEEvent.error msg) ∧
    List.countP isErrorEv
      (stream_llm_response fragments (some msg) tE uE mid).events = 1 ∧
    (stream_llm_response fragments (some msg) tE uE mid).events.filterMap
      completeText? = [] ∧
    (stream_llm_response fragments (some msg) tE uE mid).updates = [] := by
  refine ⟨?_, ?_, ?_, stream_updates_some fragments msg tE uE mid⟩
  · rw [stream_events_some]
    exact getLast?_cons_concat _ _ _
  · rw [stream_events_some]
    simp [List.countP_cons, List.countP_append, isErrorEv, chunks_countP_error]
  · rw [stream_events_some]
    simp [List.filterMap_append, completeText?,
      chunks_filterMap_none completeText? (fun _ => rfl)]

/-- C6: title derivation happens only when the full response is longer than
10 characters — for a response of length at most 10 no title is derived and
no `summary` event is emitted — and when it happens the emitted title is the
first line truncated to 50 characters, except that when this candidate is
shorter than 10 characters it is instead the first 50 characters of the full
response with every newline replaced by a space. -/
theorem title_derivation_rule (fragments : List String) (uE : Bool)
    (mid : String) :
    (strLen (joinFrags fragments) ≤ 10 →
      deriveTitle (joinFrags fragments) = none ∧
      summaryTextsOf (stream_llm_response fragments none false uE mid).events
        = []) ∧
    (strLen (joinFrags fragments) > 10 →
      summaryTextsOf (stream_llm_response fragments none false uE mid).events
        = [if strLen (strTake (firstLine (joinFrags fragments)) 50) < 10 then
            replaceNL (strTake (joinFrags fragments) 50)
          else strTake (firstLine (joinFrags fragments)) 50]) := by
  constructor
  · intro h
    refine ⟨deriveTitle_of_le _ h, ?_⟩
    rw [summaryTextsOf, stream_events_none, full_eq_joinFrags]
    simp [List.filterMap_append, summaryText?,
      chunks_filterMap_none summaryText? (fun _ => rfl), runTitle,
      deriveTitle_of_le _ h, summaryEvents]
  · intro h
    rcases deriveTitle_truthy _ h with ⟨t, hsome, htruthy⟩
    have ht : t = if strLen (strTake (firstLine (joinFrags fragments)) 50) < 10
        then replaceNL (strTake (joinFrags fragments) 50)
        else strTake (firstLine (joinFrags fragments)) 50 :=
      Option.some.inj (hsome.symm.trans (deriveTitle_of_gt _ h))
    subst ht
    rw [summaryTextsOf, stream_events_none, full_eq_joinFrags]
    simp [List.filterMap_append, summaryText?,
      chunks_filterMap_none summaryText? (fun _ => rfl), runTitle, hsome,
      summaryEvents, htruthy]

/-- Witness for C6 at two concrete streams: "hi" (length 2, no summary) and a
23-character response whose first line is long enough to be the title. -/
theorem title_derivation_rule_witness :
    (strLen (joinFrags ["hi"]) ≤ 10 ∧
      deriveTitle (joinFrags ["hi"]) = none ∧
      summaryTextsOf (stream_llm_response ["hi"] none false false "m").events
        = []) ∧
    (strLen (joinFrags ["A big announcement today"]) > 10 ∧
      summaryTextsOf
        (stream_llm_response ["A big announcement today"] none false false
          "m").events
        = [if strLen (strTake (firstLine
              (joinFrags ["A big announcement today"])) 50) < 10 then
            replaceNL (strTake (joinFrags ["A big announcement today"]) 50)
          else strTake (firstLine (joinFrags ["A big announcement today"])) 50]) :=
  ⟨⟨by decide, (title_derivation_rule ["hi"] false "m").1 (by decide)⟩,
   ⟨by decide,
    (title_derivation_rule ["A big announcement today"] false "m").2 (by decide)⟩⟩

/-- C7 (counterexample): with `original_message_id = "m"` (truthy) and an LLM
stream that yields no fragments, the stream completes successfully (terminal
`complete` with empty text) and yet the store receives no update call at all,
because the cleaning filter drops the empty `response` value. -/
theorem single_update_call_cex :
    strTruthy "m" = true ∧
    (stream_llm_response [] none false false "m").events.getLast? =
      some (SSEEvent.complete "") ∧
    (stream_llm_response [] none false false "m").updates = [] := by decide

/-- C7 (amended): when `original_message_id` is truthy, the stream completes
successfully AND the full response is non-empty, the store receives exactly
one update call, for that message id, whose `response` is the full response
text and whose `title` is the derived title, omitted when absent or empty.
(When the full response is empty, no update call is made at all.) -/
theorem single_update_call_amended (fragments : List String) (tE uE : Bool)
    (mid : String) (hmid : strTruthy mid = true)
    (hfull : strTruthy (joinFrags fragments) = true) :
    (stream_llm_response fragments none tE uE mid).updates =
      [⟨mid, some (joinFrags fragments),
        filterTitle (runTitle tE (joinFrags fragments))⟩] := by
  rw [stream_updates_none, full_eq_joinFrags]
  simp [updateCalls, hmid, hfull]

/-- Witness for C7 (amended) at a concrete run. -/
theorem single_update_call_witness :
    strTruthy "m" = true ∧ strTruthy (joinFrags ["Hello."]) = true ∧
    (stream_llm_response ["Hello."] none false false "m").updates =
      [⟨"m", some (joinFrags ["Hello."]),
        filterTitle (runTitle false (joinFrags ["Hello."]))⟩] :=
  ⟨by decide, by decide,
    single_update_call_amended ["Hello."] false false "m" (by decide) (by decide)⟩

/-- C8: swallowed failures are invisible in the stream.  Whatever the two
fault-injection flags, the terminal event is still the `complete` event with
the full text, no `error` event is ever emitted on the success path, a
title-derivation failure just suppresses the `summary` event (title treated
as absent), and a persistence failure leaves the event sequence unchanged. -/
theorem nonfatal_failures_swallowed (fragments : List String) (tE uE : Bool)
    (mid : String) :
    (stream_llm_response fragments none tE uE mid).events.getLast? =
      some (SSEEvent.complete (joinFrags fragments)) ∧
    List.countP isErrorEv
      (stream_llm_response fragments none tE uE mid).events = 0 ∧
    summaryTextsOf (stream_llm_response fragments none true uE mid).events
      = [] ∧
    (stream_llm_response fragments none tE true mid).events =
      (stream_llm_response fragments none tE false mid).events := by
  refine ⟨?_, ?_, ?_, rfl⟩
  · rw [stream_events_none, full_eq_joinFrags]
    exact getLast?_cons_concat _ _ _
  · rw [stream_events_none]
    simp [List.countP_cons, List.countP_append, isErrorEv,
      chunks_countP_error, summaryEvents_countP_error]
  · rw [summaryTextsOf, stream_events_none]
    simp [List.filterMap_append, summaryText?,
      chunks_filterMap_none summaryText? (fun _ => rfl), runTitle,
      summaryEvents]

/-- C9: an LLM stream that yields zero fragments produces exactly the events
`start` then `complete` with empty text — no `chunk`, no `summary` — and no
update call is made, whatever `original_message_id` is, because the empty
`response` value is filtered out of the update. -/
theorem empty_stream_behavior (tE uE : Bool) (mid : String) :
    (stream_llm_response [] none tE uE mid).events =
      [SSEEvent.start, SSEEvent.complete ""] ∧
    (stream_llm_response [] none tE uE mid).updates = [] := by
  have ht : runTitle tE "" = none := by
    cases tE with
    | false => rfl
    | true => rfl
  constructor
  · rw [stream_events_none]
    simp [streamChunks, ht, summaryEvents]
  · rw [stream_updates_none]
    cases hm : strTruthy mid with
    | false => simp [streamChunks, updateCalls, hm]
    | true =>
      simp [streamChunks, updateCalls, hm, ht, filterTitle, strTruthy_empty]

/-- C10: whenever the full response is longer than 10 characters and title
derivation does not raise, a `summary` event is emitted and the title it
carries is a non-empty (truthy) string. -/
theorem summary_title_nonempty (fragments : List String) (uE : Bool)
    (mid : String) (h : strLen (joinFrags fragments) > 10) :
    ∃ t, SSEEvent.summary t ∈
        (stream_llm_response fragments none false uE mid).events ∧
      strTruthy t = true := by
  rcases deriveTitle_truthy _ h with ⟨t, hsome, htruthy⟩
  refine ⟨t, ?_, htruthy⟩
  rw [stream_events_none, full_eq_joinFrags]
  have hse : summaryEvents (runTitle false (joinFrags fragments)) =
      [SSEEvent.summary t] := by
    simp [runTitle, hsome, summaryEvents, htruthy]
  rw [hse]
  simp

/-- Witness for C10 at a concrete stream of two fragments. -/
theorem summary_title_nonempty_witness :
    strLen (joinFrags ["An adequately", " long response"]) > 10 ∧
    ∃ t, SSEEvent.summary t ∈
        (stream_llm_response ["An adequately", " long response"] none false
          false "m").events ∧
      strTruthy t = true :=
  ⟨by decide,
    summary_title_nonempty ["An adequately", " long response"] false "m"
      (by decide)⟩

end HttpStream
